import Mathlib

/-!
Verification of the shuttletracker core (package `smooth`, the spoofer, and the
geometry/kinematics helpers) against its natural-language specification.

The Go source is shallowly embedded: pure float arithmetic becomes real
arithmetic, pointers become `Option`, Go `nil`-dereference panics become an
explicit `Failure.nilDeref` outcome, loops whose termination is in question are
run on explicit fuel (`Failure.noFuel` marks fuel exhaustion, so a result that
is `noFuel` for every fuel amount is a proof of divergence of the source loop),
and the external model service is a record of pure response functions.
Side effects that the claims talk about (log lines, `CreateLocation` calls,
subscriber notifications) are reified as event lists.
-/

namespace Shuttle

noncomputable section

/-- Geographic point in degrees (`shuttletracker.Point`). -/
structure Point where
  latitude : ℝ
  longitude : ℝ

/-- A shuttle stop (`shuttletracker.Stop`): id plus coordinates. -/
structure Stop where
  id : ℤ
  latitude : ℝ
  longitude : ℝ

/-- A route (`shuttletracker.Route`): ordered cyclic point list plus the ids of
the stops on the route. -/
structure Route where
  id : ℤ
  points : List Point
  stopIDs : List ℤ

/-- A vehicle (`shuttletracker.Vehicle`); only its id matters to this core. -/
structure Vehicle where
  id : ℤ

/-- One observed or derived position fix (`shuttletracker.Location`).
Times (`time.Time`) are modelled as reals; the Go zero value of a field is `0`
(respectively `none` for the pointer-valued fields). -/
structure Location where
  id : ℤ
  trackerID : ℤ
  latitude : ℝ
  longitude : ℝ
  heading : ℝ
  speed : ℝ
  time : ℝ
  created : ℝ
  vehicleID : Option ℤ
  routeID : Option ℤ

/-- `smooth.Prediction`. -/
structure Prediction where
  vehicleID : ℤ
  point : Point
  index : ℕ
  angle : ℝ

/-- Outcome of running embedded Go code that can panic or exhaust its fuel.
`nilDeref` is a Go nil-pointer dereference, `indexRange` an out-of-range
index panic, `noFuel` exhaustion of the fuel bound on a loop. -/
inductive Failure where
  | nilDeref
  | indexRange
  | noFuel
deriving DecidableEq, Repr

/-! ## Geometry and kinematics library (source file with `DistanceBetween`,
`AngleBetween`, `ClosestPointTo`, `ClosestStop`, ...) -/

/-- `earthRadius` constant: 6,371,000 meters. -/
def earthRadius : ℝ := 6371000

/-- `haversine(theta)` from the source: `(1 - cos θ) / 2`. -/
def haversine (theta : ℝ) : ℝ := (1 - Real.cos theta) / 2

/-- `toRadians` from the source. -/
def toRadians (n : ℝ) : ℝ := n * Real.pi / 180

/-- `toDegrees` from the source. -/
def toDegrees (angle : ℝ) : ℝ := angle * 180 / Real.pi

/-- `DistanceBetween(p1, p2)`: haversine great-circle distance in meters
(the source's local variables `lat1Rad`, ..., `lon2Rad` are inlined). -/
def DistanceBetween (p1 p2 : Point) : ℝ :=
  2 * earthRadius * Real.arcsin (Real.sqrt
    (haversine (toRadians p2.latitude - toRadians p1.latitude) +
      Real.cos (toRadians p1.latitude) * Real.cos (toRadians p2.latitude) *
        haversine (toRadians p2.longitude - toRadians p1.longitude)))

/-- Go's `math.Atan2 y x` on reals: the angle of the vector `(x, y)` in
`(-π, π]`, with `atan2 0 0 = 0` (Go returns `+0` for `Atan2(+0, +0)`). -/
def atan2 (y x : ℝ) : ℝ :=
  if 0 < x then Real.arctan (y / x)
  else if x < 0 then
    (if 0 ≤ y then Real.arctan (y / x) + Real.pi else Real.arctan (y / x) - Real.pi)
  else
    (if 0 < y then Real.pi / 2 else if y < 0 then -(Real.pi / 2) else 0)

/-- Go's `math.Trunc`: round toward zero. -/
def goTrunc (x : ℝ) : ℝ := if 0 ≤ x then ((⌊x⌋ : ℤ) : ℝ) else -((⌊-x⌋ : ℤ) : ℝ)

/-- Go's `math.Mod x y = x - Trunc(x/y)*y` (result has the sign of `x`). -/
def goMod (x y : ℝ) : ℝ := x - y * goTrunc (x / y)

/-- `AngleBetween(p1, p2)` from the source: forward azimuth normalized with
`math.Mod(brng+360, 360)` and then shifted by the fixed `- 45` offset. -/
def AngleBetween (p1 p2 : Point) : ℝ :=
  let radLat1 := toRadians p1.latitude
  let radLng1 := toRadians p1.longitude
  let radLat2 := toRadians p2.latitude
  let radLng2 := toRadians p2.longitude
  let deltaLongitude := radLng2 - radLng1
  let y := Real.sin deltaLongitude * Real.cos radLat2
  let x := Real.cos radLat1 * Real.sin radLat2 -
    Real.sin radLat1 * Real.cos radLat2 * Real.cos deltaLongitude
  let brng := goMod (toDegrees (atan2 y x) + 360) 360
  brng - 45

/-- The distance from a point to itself is zero (all the angle differences in
the haversine formula vanish). -/
theorem distanceBetween_self (p : Point) : DistanceBetween p p = 0 := by
  simp [DistanceBetween, haversine]

/-- Go's `atan2` lies in `[-π, π]`. -/
theorem atan2_bounds (y x : ℝ) : -Real.pi ≤ atan2 y x ∧ atan2 y x ≤ Real.pi := by
  have hpi := Real.pi_pos
  have h1 := Real.arctan_lt_pi_div_two (y / x)
  have h2 := Real.neg_pi_div_two_lt_arctan (y / x)
  unfold atan2
  split_ifs with hx hx2 hy hy2 hy3
  · exact ⟨by linarith, by linarith⟩
  · have hq : y / x ≤ 0 := div_nonpos_iff.mpr (Or.inl ⟨hy, le_of_lt hx2⟩)
    have h3 : Real.arctan (y / x) ≤ 0 := by
      have := Real.arctan_strictMono.monotone hq
      rwa [Real.arctan_zero] at this
    exact ⟨by linarith, by linarith⟩
  · have hq : 0 ≤ y / x := div_nonneg_iff.mpr (Or.inr ⟨by linarith, le_of_lt hx2⟩)
    have h3 : 0 ≤ Real.arctan (y / x) := by
      have := Real.arctan_strictMono.monotone hq
      rwa [Real.arctan_zero] at this
    exact ⟨by linarith, by linarith⟩
  · exact ⟨by linarith, by linarith⟩
  · exact ⟨by linarith, by linarith⟩
  · exact ⟨by linarith, by linarith⟩

/-- For a nonnegative argument, `goMod t 360` lies in `[0, 360)`. -/
theorem goMod_bounds {t : ℝ} (ht : 0 ≤ t) : 0 ≤ goMod t 360 ∧ goMod t 360 < 360 := by
  have hq : (0 : ℝ) ≤ t / 360 := by positivity
  have htr : goTrunc (t / 360) = ((⌊t / 360⌋ : ℤ) : ℝ) := by
    simp [goTrunc, hq]
  have hfr : goMod t 360 = 360 * Int.fract (t / 360) := by
    rw [goMod, htr, Int.fract]
    have : t = 360 * (t / 360) := by ring
    nlinarith [this]
  constructor
  · rw [hfr]
    have := Int.fract_nonneg (t / 360)
    nlinarith
  · rw [hfr]
    have := Int.fract_lt_one (t / 360)
    nlinarith

/-- Go's `math.MaxFloat64` constant, exactly `(2 - 2^-52) * 2^1023`. -/
def maxFloat64 : ℝ := 2 ^ 1024 - 2 ^ 971

/-- Loop body of `ClosestPointTo`: scan the points with a running index, the
running minimum distance (`none` models the `math.Inf(1)` start value, which
every float distance compares below) and the best index so far. -/
def closestAux (target : Point) : List Point → ℕ → Option ℝ → ℕ → ℕ
  | [], _, _, best => best
  | p :: rest, i, minDistance, best =>
    match minDistance with
    | none => closestAux target rest (i + 1) (some (DistanceBetween p target)) i
    | some m =>
      if DistanceBetween p target < m then
        closestAux target rest (i + 1) (some (DistanceBetween p target)) i
      else
        closestAux target rest (i + 1) (some m) best

/-- `ClosestPointTo(latitude, longitude, route)`: index of the closest route
point to the given coordinates. -/
def ClosestPointTo (latitude longitude : ℝ) (route : Route) : ℕ :=
  closestAux ⟨latitude, longitude⟩ route.points 0 none 0

/-- Control state of the two nested loops of `ClosestStop`: either at the
outer `i < len(route.StopIDs)` check, or at the inner `j < len(stops)` check.
The source increments neither `i` nor `j`; the transitions below reproduce the
source exactly. -/
inductive CSState where
  | outer (i : ℕ) (minDistance : ℝ) (minDistanceStopIndex : ℕ)
  | inner (i j : ℕ) (minDistance : ℝ) (minDistanceStopIndex : ℕ)

/-- Fuelled run of the `ClosestStop` loop nest. One unit of fuel is one
evaluation of a loop condition-plus-body; `.error .noFuel` for every fuel
amount means the source loops forever. -/
def closestStopRun (currentIndex : ℕ) (route : Route) (stops : List Stop) :
    ℕ → CSState → Except Failure ℕ
  | 0, _ => .error .noFuel
  | fuel + 1, .outer i minD minIdx =>
    if i < route.stopIDs.length then
      closestStopRun currentIndex route stops fuel (.inner i 0 minD minIdx)
    else .ok minIdx
  | fuel + 1, .inner i j minD minIdx =>
    match stops[j]? with
    | none => closestStopRun currentIndex route stops fuel (.outer i minD minIdx)
    | some s =>
      if route.stopIDs.getD i 0 = s.id then
        match route.points[currentIndex]? with
        | none => .error .indexRange
        | some pt =>
          if DistanceBetween ⟨s.latitude, s.longitude⟩ pt < minD then
            closestStopRun currentIndex route stops fuel
              (.outer i (DistanceBetween ⟨s.latitude, s.longitude⟩ pt) j)
          else
            closestStopRun currentIndex route stops fuel (.inner i j minD minIdx)
      else closestStopRun currentIndex route stops fuel (.inner i j minD minIdx)

/-- `ClosestStop(currentIndex, route, ms)` with the model service's stop list
supplied directly (the source refetches `ms.Stops()` every outer iteration and
discards the error; a deterministic service makes that the constant `stops`). -/
def ClosestStop (fuel : ℕ) (currentIndex : ℕ) (route : Route) (stops : List Stop) :
    Except Failure ℕ :=
  closestStopRun currentIndex route stops fuel (.outer 0 maxFloat64 0)

/-- `HeadingTowardTowardOrLeavingStop` from the source; `stops[stopIndex]` is
a Go index expression, so an out-of-range `stopIndex` is an `indexRange`
panic. Go's `int` subtractions are guarded by the comparisons, so natural
subtraction is faithful. -/
def HeadingTowardTowardOrLeavingStop (currentIndex stopIndex : ℕ) (route : Route)
    (stops : List Stop) : Except Failure Bool :=
  match stops[stopIndex]? with
  | none => .error .indexRange
  | some s =>
    let stopRouteIndex := ClosestPointTo s.latitude s.longitude route
    if currentIndex ≤ stopRouteIndex ∧ stopRouteIndex - currentIndex < route.points.length / 2 then
      .ok true
    else if stopRouteIndex < currentIndex ∧ route.points.length / 2 < currentIndex - stopRouteIndex then
      .ok true
    else
      .ok false

/-- Loop body of `DistanceToPointAlongRoute`, on fuel: walk forward with
wraparound, accumulating the distance, until `stopindex` is reached. -/
def distToPointAux (route : Route) (stopindex : ℕ) : ℕ → ℕ → ℝ → Except Failure ℝ
  | 0, index, acc => if index = stopindex then .ok acc else .error .noFuel
  | fuel + 1, index, acc =>
    if index = stopindex then .ok acc
    else
      let index2 := if route.points.length ≤ index + 1 then 0 else index + 1
      match route.points[index]?, route.points[index2]? with
      | some p, some q =>
        distToPointAux route stopindex fuel index2 (acc + DistanceBetween p q)
      | _, _ => .error .indexRange

/-- `DistanceToPointAlongRoute(currentindex, stopindex, route)` on fuel. -/
def DistanceToPointAlongRoute (fuel : ℕ) (currentindex stopindex : ℕ) (route : Route) :
    Except Failure ℝ :=
  distToPointAux route stopindex fuel currentindex 0

/-- `acceleration(velocity, distance) = -velocity² / (2·distance)`. -/
def acceleration (velocity distance : ℝ) : ℝ := -(velocity ^ 2) / (2 * distance)

/-- `toDegrees` maps `[-π, π]` into `[-180, 180]`. -/
theorem toDegrees_bounds {a : ℝ} (h1 : -Real.pi ≤ a) (h2 : a ≤ Real.pi) :
    -180 ≤ toDegrees a ∧ toDegrees a ≤ 180 := by
  have hpi := Real.pi_pos
  constructor
  · rw [toDegrees, le_div_iff₀ hpi]
    nlinarith
  · rw [toDegrees, div_le_iff₀ hpi]
    nlinarith

/-- The normalized-then-shifted bearing expression lies in `[-45, 315)`. -/
theorem goMod_shift_bounds (y x : ℝ) :
    -45 ≤ goMod (toDegrees (atan2 y x) + 360) 360 - 45 ∧
    goMod (toDegrees (atan2 y x) + 360) 360 - 45 < 315 := by
  obtain ⟨h1, h2⟩ := atan2_bounds y x
  obtain ⟨h3, h4⟩ := toDegrees_bounds h1 h2
  have ht : (0 : ℝ) ≤ toDegrees (atan2 y x) + 360 := by linarith
  obtain ⟨h5, h6⟩ := goMod_bounds ht
  exact ⟨by linarith, by linarith⟩

/-- Concrete evaluation: the bearing from the origin to itself is `-45`,
because `atan2 0 0 = 0`, the normalization gives `0`, and the source then
subtracts the fixed 45-degree offset. -/
theorem angleBetween_origin : AngleBetween ⟨0, 0⟩ ⟨0, 0⟩ = -45 := by
  unfold AngleBetween
  norm_num [toRadians, toDegrees, atan2, goMod, goTrunc]

/-- C6 counterexample: `AngleBetween` does not always return a value in
`[0, 360)`; at `p1 = p2 = (0, 0)` it returns `-45`. -/
theorem C6_counterexample :
    ¬ (0 ≤ AngleBetween ⟨0, 0⟩ ⟨0, 0⟩ ∧ AngleBetween ⟨0, 0⟩ ⟨0, 0⟩ < 360) := by
  rw [angleBetween_origin]
  norm_num

/-- C6 (amended): for every pair of points, `AngleBetween` returns the forward
azimuth normalized into `[0, 360)` and then shifted by the fixed 45-degree
calibration offset, so the returned value lies in `[-45, 315)`. -/
theorem C6_bearing_range (p1 p2 : Point) :
    -45 ≤ AngleBetween p1 p2 ∧ AngleBetween p1 p2 < 315 := by
  unfold AngleBetween
  exact goMod_shift_bounds _ _

/-- State of the prediction forward-walk loop in `NaivePredictPosition`:
current `index`, accumulated `elapsedDistance`, current `angle`. -/
structure WalkState where
  index : ℕ
  elapsedDistance : ℝ
  angle : ℝ

/-- One iteration of the forward-walk loop body: advance the index with
wraparound, accumulate the inter-point distance, recompute the angle. -/
def walkStep (pts : List Point) (s : WalkState) : WalkState :=
  let index2 := if pts.length ≤ s.index + 1 then 0 else s.index + 1
  { index := index2,
    elapsedDistance := s.elapsedDistance +
      DistanceBetween (pts.getD s.index ⟨0, 0⟩) (pts.getD index2 ⟨0, 0⟩),
    angle := AngleBetween (pts.getD s.index ⟨0, 0⟩) (pts.getD index2 ⟨0, 0⟩) }

/-- The forward-walk loop of `NaivePredictPosition` on fuel:
`for elapsedDistance < predictedDistance { ... }`. The guard
`s.index < pts.length` reproduces Go's bounds check on
`route.Points[prevIndex]` (and the wrapped new index is then in range too). -/
def forwardWalk (pts : List Point) (pd : ℝ) : ℕ → WalkState → Except Failure WalkState
  | 0, s => if s.elapsedDistance < pd then .error .noFuel else .ok s
  | fuel + 1, s =>
    if s.elapsedDistance < pd then
      if s.index < pts.length then forwardWalk pts pd fuel (walkStep pts s)
      else .error .indexRange
    else .ok s

/-- The external model service (`shuttletracker.ModelService`), modelled as a
deterministic record of pure responses: `none` models a returned error,
`createOk` tells whether a `CreateLocation` call succeeds. -/
structure ModelService where
  vehicle : ℤ → Option Vehicle
  route : ℤ → Option Route
  stops : List Stop
  createOk : Location → Bool

/-- `NaivePredictPosition(vehicle, lastUpdate, route, ms)` from the source,
with `time.Now()` passed in as `now` and fuel for its three loops
(`ClosestStop`, `DistanceToPointAlongRoute`, the forward walk). -/
def NaivePredictPosition (ms : ModelService) (now : ℝ) (fuel : ℕ)
    (vehicle : Vehicle) (lastUpdate : Location) (route : Route) :
    Except Failure Prediction :=
  let index := ClosestPointTo lastUpdate.latitude lastUpdate.longitude route
  match ClosestStop fuel index route ms.stops with
  | .error f => .error f
  | .ok stopIndex =>
    match HeadingTowardTowardOrLeavingStop index stopIndex route ms.stops with
    | .error f => .error f
    | .ok headingToward =>
      match DistanceToPointAlongRoute fuel index stopIndex route with
      | .error f => .error f
      | .ok distanceToStop =>
        let secondsSinceUpdate := now - lastUpdate.time
        let predictedDistance :=
          if headingToward = true ∧ distanceToStop < 30 then
            lastUpdate.speed * secondsSinceUpdate +
              (1 / 2 : ℝ) * acceleration lastUpdate.speed distanceToStop *
                secondsSinceUpdate ^ 2
          else secondsSinceUpdate * lastUpdate.speed
        match forwardWalk route.points predictedDistance fuel ⟨index, 0, 0⟩ with
        | .error f => .error f
        | .ok s =>
          match route.points[s.index]? with
          | none => .error .indexRange
          | some pt => .ok ⟨vehicle.id, pt, s.index, s.angle⟩

/-! ## C1: termination of `ClosestStop` -/

/-- `math.MaxFloat64` is positive. -/
theorem maxFloat64_pos : (0 : ℝ) < maxFloat64 := by norm_num [maxFloat64]

/-- Concrete route for the C1 analysis: one point at the origin, one listed
stop id, and that id is present in the stop collection at the same point. -/
def routeC1 : Route := ⟨5, [⟨0, 0⟩], [1]⟩

/-- Concrete stop collection for the C1 analysis. -/
def stopsC1 : List Stop := [⟨1, 0, 0⟩]

/-- The inner-loop state `(i=0, j=0, minDistance=0, minIdx=0)` is a fixed
point of the `ClosestStop` loop nest on `routeC1`/`stopsC1`: the listed stop
matches at distance `0`, `0 < 0` fails, and neither `i` nor `j` is ever
incremented, so the loop re-enters the same state forever. -/
theorem closestStopRun_inner_fixed (n : ℕ) :
    closestStopRun 0 routeC1 stopsC1 n (CSState.inner 0 0 0 0) =
      Except.error Failure.noFuel := by
  induction n with
  | zero => rfl
  | succ n ih =>
    simpa [closestStopRun, routeC1, stopsC1, distanceBetween_self] using ih

/-- First transition on `routeC1`: the outer check `0 < 1` passes and the
inner loop is entered with `j = 0`. -/
theorem closestStopRun_s0 (n : ℕ) :
    closestStopRun 0 routeC1 stopsC1 (n + 1) (CSState.outer 0 maxFloat64 0) =
      closestStopRun 0 routeC1 stopsC1 n (CSState.inner 0 0 maxFloat64 0) := by
  simp [closestStopRun, routeC1]

/-- Second transition: the stop id matches, its distance `0` beats
`math.MaxFloat64`, the minimum is updated and `break` exits the inner loop. -/
theorem closestStopRun_s1 (n : ℕ) :
    closestStopRun 0 routeC1 stopsC1 (n + 1) (CSState.inner 0 0 maxFloat64 0) =
      closestStopRun 0 routeC1 stopsC1 n (CSState.outer 0 0 0) := by
  simp [closestStopRun, routeC1, stopsC1, distanceBetween_self, maxFloat64_pos]

/-- Third transition: the outer check passes again with the same `i = 0`. -/
theorem closestStopRun_s2 (n : ℕ) :
    closestStopRun 0 routeC1 stopsC1 (n + 1) (CSState.outer 0 0 0) =
      closestStopRun 0 routeC1 stopsC1 n (CSState.inner 0 0 0 0) := by
  simp [closestStopRun, routeC1]

/-- C1: the claim that `ClosestStop` terminates is violated by the code. On a
route with one listed stop id that IS present in the supplied stop collection
(so the two collections even agree), the scan exhausts every fuel bound: the
source increments neither loop counter, so `ClosestStop` never returns. -/
theorem C1_closestStop_diverges (fuel : ℕ) :
    ClosestStop fuel 0 routeC1 stopsC1 = Except.error Failure.noFuel := by
  match fuel with
  | 0 => rfl
  | 1 => exact (closestStopRun_s0 0).trans rfl
  | 2 => exact (closestStopRun_s0 1).trans ((closestStopRun_s1 0).trans rfl)
  | n + 3 =>
    exact (closestStopRun_s0 (n + 2)).trans ((closestStopRun_s1 (n + 1)).trans
      ((closestStopRun_s2 n).trans (closestStopRun_inner_fixed n)))

/-! ## C8: the prediction forward walk -/

/-- If the accumulated distance has already reached the projected distance,
the walk loop performs zero iterations and returns the state unchanged. -/
theorem forwardWalk_stay (pts : List Point) (pd : ℝ) (s : WalkState)
    (h : ¬ s.elapsedDistance < pd) (fuel : ℕ) : forwardWalk pts pd fuel s = .ok s := by
  cases fuel <;> simp [forwardWalk, h]

/-- Soundness of the fuelled walk: a returned state is the iterate of the loop
body at the first iteration count whose accumulated distance is no longer
below the projected distance. -/
theorem forwardWalk_sound (pts : List Point) (pd : ℝ) :
    ∀ (fuel : ℕ) (s s2 : WalkState), forwardWalk pts pd fuel s = .ok s2 →
      ∃ k, k ≤ fuel ∧ s2 = (walkStep pts)^[k] s ∧
        (∀ m, m < k → ((walkStep pts)^[m] s).elapsedDistance < pd) ∧
        ¬ s2.elapsedDistance < pd := by
  intro fuel
  induction fuel with
  | zero =>
    intro s s2 h
    simp only [forwardWalk] at h
    by_cases hc : s.elapsedDistance < pd
    · rw [if_pos hc] at h
      exact absurd h (by simp)
    · rw [if_neg hc] at h
      injection h with h2
      subst h2
      exact ⟨0, Nat.le_refl 0, by simp, fun m hm => absurd hm (Nat.not_lt_zero m), hc⟩
  | succ fuel ih =>
    intro s s2 h
    simp only [forwardWalk] at h
    by_cases hc : s.elapsedDistance < pd
    · rw [if_pos hc] at h
      by_cases hi : s.index < pts.length
      · rw [if_pos hi] at h
        obtain ⟨k, hk, hs2, hmid, hfin⟩ := ih (walkStep pts s) s2 h
        refine ⟨k + 1, by omega, ?_, ?_, hfin⟩
        · rw [hs2, Function.iterate_succ_apply]
        · intro m hm
          cases m with
          | zero => simpa using hc
          | succ m =>
            rw [Function.iterate_succ_apply]
            exact hmid m (by omega)
      · rw [if_neg hi] at h
        exact absurd h (by simp)
    · rw [if_neg hc] at h
      injection h with h2
      subst h2
      exact ⟨0, Nat.zero_le _, by simp, fun m hm => absurd hm (Nat.not_lt_zero m), hc⟩

/-- The index field of one loop-body iteration. -/
theorem walkStep_index (pts : List Point) (t : WalkState) :
    (walkStep pts t).index = if pts.length ≤ t.index + 1 then 0 else t.index + 1 := rfl

/-- Helper: appending one step to a reduced index commutes with the modulus. -/
theorem mod_succ_mod (a n : ℕ) : (a % n + 1) % n = (a + 1) % n := by
  calc (a % n + 1) % n = (a % n + 1 + n * (a / n)) % n := by
        rw [Nat.add_mul_mod_self_left]
    _ = (a + 1) % n := by
        rw [Nat.add_right_comm, Nat.mod_add_div]

/-- One loop-body iteration from an in-range index advances the index by one
modulo the route length, staying in range. -/
theorem walkStep_index_mod (pts : List Point) (t : WalkState) (h : t.index < pts.length) :
    (walkStep pts t).index = (t.index + 1) % pts.length ∧
      (walkStep pts t).index < pts.length := by
  have hlen : 0 < pts.length := lt_of_le_of_lt (Nat.zero_le t.index) h
  rw [walkStep_index]
  by_cases hle : pts.length ≤ t.index + 1
  · have he : t.index + 1 = pts.length := by omega
    rw [if_pos hle, he, Nat.mod_self]
    exact ⟨rfl, hlen⟩
  · have hlt : t.index + 1 < pts.length := by omega
    rw [if_neg hle, Nat.mod_eq_of_lt hlt]
    exact ⟨rfl, hlt⟩

/-- `k` iterations of the loop body walk the route index by index with
wraparound: the index after `k` steps is `(start + k) mod length`. -/
theorem walkStep_iterate_index (pts : List Point) (s : WalkState)
    (h : s.index < pts.length) (k : ℕ) :
    ((walkStep pts)^[k] s).index = (s.index + k) % pts.length ∧
      ((walkStep pts)^[k] s).index < pts.length := by
  induction k with
  | zero =>
    constructor
    · simpa using (Nat.mod_eq_of_lt h).symm
    · simpa using h
  | succ k ih =>
    obtain ⟨h1, h2⟩ := ih
    rw [Function.iterate_succ_apply']
    obtain ⟨h3, h4⟩ := walkStep_index_mod pts _ h2
    refine ⟨?_, h4⟩
    rw [h3, h1, mod_succ_mod, Nat.add_assoc]

/-- C8: the prediction forward walk of `NaivePredictPosition`. First: if the
projected distance is nonpositive the loop performs zero iterations and the
result is the current index with accumulated distance and angle `0`. Second:
any state the loop returns is the iterate of the loop body at the FIRST
iteration count whose accumulated inter-point distance reaches or exceeds the
projected distance, and the index walked to is `(start + k) mod length`
(wraparound). Third: when the projected distance exactly equals the distance
from the start point to the next one (and is positive), the walk stops at
index `start + 1` — for the square-loop scenario with the vehicle at point 0,
the predicted index is 1, not 0 or 2. -/
theorem C8_forward_walk (pts : List Point) (pd : ℝ) (start fuel : ℕ) :
    (pd ≤ 0 → forwardWalk pts pd fuel ⟨start, 0, 0⟩ = Except.ok ⟨start, 0, 0⟩) ∧
    (∀ s2, forwardWalk pts pd fuel ⟨start, 0, 0⟩ = Except.ok s2 →
      ∃ k, k ≤ fuel ∧ s2 = (walkStep pts)^[k] (⟨start, 0, 0⟩ : WalkState) ∧
        (∀ m, m < k →
          ((walkStep pts)^[m] (⟨start, 0, 0⟩ : WalkState)).elapsedDistance < pd) ∧
        pd ≤ s2.elapsedDistance ∧
        (start < pts.length → s2.index = (start + k) % pts.length)) ∧
    (start + 1 < pts.length →
      pd = DistanceBetween (pts.getD start ⟨0, 0⟩) (pts.getD (start + 1) ⟨0, 0⟩) →
      0 < pd → 1 ≤ fuel →
      forwardWalk pts pd fuel ⟨start, 0, 0⟩ =
        Except.ok ⟨start + 1, pd,
          AngleBetween (pts.getD start ⟨0, 0⟩) (pts.getD (start + 1) ⟨0, 0⟩)⟩) := by
  refine ⟨?_, ?_, ?_⟩
  · intro hpd
    exact forwardWalk_stay pts pd _ (by simpa using not_lt.mpr hpd) fuel
  · intro s2 h
    obtain ⟨k, hk, hs2, hmid, hfin⟩ := forwardWalk_sound pts pd fuel _ s2 h
    refine ⟨k, hk, hs2, hmid, not_lt.mp hfin, ?_⟩
    intro hstart
    rw [hs2]
    exact (walkStep_iterate_index pts _ hstart k).1
  · intro hlt hpd hpos hfuel
    obtain ⟨f, rfl⟩ : ∃ f, fuel = f + 1 := ⟨fuel - 1, by omega⟩
    have hws : walkStep pts ⟨start, 0, 0⟩ =
        ⟨start + 1,
          DistanceBetween (pts.getD start ⟨0, 0⟩) (pts.getD (start + 1) ⟨0, 0⟩),
          AngleBetween (pts.getD start ⟨0, 0⟩) (pts.getD (start + 1) ⟨0, 0⟩)⟩ := by
      simp [walkStep, Nat.not_le.mpr hlt]
    simp only [forwardWalk]
    rw [if_pos (show (⟨start, 0, 0⟩ : WalkState).elapsedDistance < pd from hpos)]
    rw [if_pos (show (⟨start, 0, 0⟩ : WalkState).index < pts.length from
      Nat.lt_of_succ_lt hlt)]
    rw [hws, ← hpd]
    exact forwardWalk_stay pts pd _ (by exact lt_irrefl pd) f

/-- Route for the C8 witness: two points a quarter circle apart. -/
def ptsC8 : List Point := [⟨0, 0⟩, ⟨0, 90⟩]

/-- The distance between the two `ptsC8` points is strictly positive. -/
theorem distanceBetween_zero_ninety_pos : 0 < DistanceBetween ⟨0, 0⟩ ⟨0, 90⟩ := by
  have h2 : toRadians 90 = Real.pi / 2 := by rw [toRadians]; ring
  have h0 : toRadians 0 = 0 := by rw [toRadians]; ring
  have harg : haversine (toRadians 0 - toRadians 0) +
      Real.cos (toRadians 0) * Real.cos (toRadians 0) *
        haversine (toRadians 90 - toRadians 0) = 1 / 2 := by
    rw [h2, h0, haversine, haversine]
    norm_num [Real.cos_pi_div_two]
  show 0 < 2 * earthRadius * Real.arcsin (Real.sqrt
    (haversine (toRadians 0 - toRadians 0) +
      Real.cos (toRadians 0) * Real.cos (toRadians 0) *
        haversine (toRadians 90 - toRadians 0)))
  rw [harg]
  have hs : 0 < Real.sqrt (1 / 2) := Real.sqrt_pos.mpr (by norm_num)
  have ha : 0 < Real.arcsin (Real.sqrt (1 / 2)) := Real.arcsin_pos.mpr hs
  have he : (0 : ℝ) < 2 * earthRadius := by norm_num [earthRadius]
  exact mul_pos he ha

/-- C8 witness: on the two-point route, a nonpositive projected distance keeps
the walk at index 0 with angle 0, and a projected distance exactly equal to
the distance from point 0 to point 1 stops the walk at index 1. -/
theorem C8_forward_walk_witness :
    forwardWalk ptsC8 (-1) 5 ⟨0, 0, 0⟩ = Except.ok ⟨0, 0, 0⟩ ∧
    forwardWalk ptsC8 (DistanceBetween ⟨0, 0⟩ ⟨0, 90⟩) 5 ⟨0, 0, 0⟩ =
      Except.ok ⟨1, DistanceBetween ⟨0, 0⟩ ⟨0, 90⟩, AngleBetween ⟨0, 0⟩ ⟨0, 90⟩⟩ := by
  constructor
  · exact (C8_forward_walk ptsC8 (-1) 0 5).1 (by norm_num)
  · have h := (C8_forward_walk ptsC8 (DistanceBetween ⟨0, 0⟩ ⟨0, 90⟩) 0 5).2.2
      (by norm_num [ptsC8]) (by norm_num [ptsC8]) distanceBetween_zero_ninety_pos
      (by norm_num)
    simpa [ptsC8] using h

/-! ## Tracking Manager (`smooth/manager.go`) -/

/-- Reified side effects of the Tracking Manager: the `CreateLocation`
persistence call (with the location passed and whether the model service
accepted it), the log line on a failed `CreateLocation`, and a subscriber
notification carrying a prediction. -/
inductive MEvent where
  | createLoc (loc : Location) (ok : Bool)
  | errCreate
  | notify (sub : ℕ) (p : Prediction)

/-- Mutable state of `SmoothTrackingManager` relevant to the claims: the
prediction cache, the last-known-location map (`updates`), the active-vehicle
list and the registered subscribers (identified by registration order). -/
structure ManagerState where
  predictions : ℤ → Option Prediction
  updates : ℤ → Option Location
  vehicleIDs : List ℤ
  subscribers : List ℕ

/-- `predictVehiclePosition` from the source, line by line. Each failed
lookup is logged and execution CONTINUES (the source has no early return), so
the next dereference of the nil pointer is a `nilDeref` panic: `vehicle.ID`
when the vehicle lookup failed, `update.RouteID` when there is no prior
update, `*update.RouteID` when the update has no route id, and `route.Points`
(inside `NaivePredictPosition`) when the route lookup failed. On the success
path the derived location is built with only `TrackerID`, `Latitude`,
`Longitude`, `Heading`, `Speed`, `Time` (stamped `now`) and `RouteID` set —
`ID`, `Created` and `VehicleID` stay at their Go zero values — then
`CreateLocation` is called (a failure only logs) and the prediction cache is
updated unconditionally afterwards. -/
def predictVehiclePosition (ms : ModelService) (now : ℝ) (fuel : ℕ)
    (st : ManagerState) (vehicleID : ℤ) :
    Except Failure (ManagerState × List MEvent) :=
  match ms.vehicle vehicleID with
  | none => Except.error .nilDeref
  | some v =>
    match st.updates v.id with
    | none => Except.error .nilDeref
    | some u =>
      match u.routeID with
      | none => Except.error .nilDeref
      | some rid =>
        match ms.route rid with
        | none => Except.error .nilDeref
        | some r =>
          match NaivePredictPosition ms now fuel v u r with
          | .error f => .error f
          | .ok prediction =>
            let newUpdate : Location :=
              { id := 0, trackerID := u.trackerID,
                latitude := prediction.point.latitude,
                longitude := prediction.point.longitude,
                heading := u.heading, speed := u.speed,
                time := now, created := 0,
                vehicleID := none, routeID := some r.id }
            Except.ok
              ({ st with predictions := fun i =>
                  if i = v.id then some prediction else st.predictions i },
               [MEvent.createLoc newUpdate (ms.createOk newUpdate)] ++
                 (if ms.createOk newUpdate then [] else [MEvent.errCreate]))

/-- The per-tick loop of `Run`: `predictVehiclePosition` for each active
vehicle in list order; a Go panic aborts the whole tick loop. -/
def runVehicles (ms : ModelService) (now : ℝ) (fuel : ℕ) :
    List ℤ → ManagerState → Except Failure (ManagerState × List MEvent)
  | [], st => .ok (st, [])
  | v :: rest, st =>
    match predictVehiclePosition ms now fuel st v with
    | .error f => .error f
    | .ok (st2, evs) =>
      match runVehicles ms now fuel rest st2 with
      | .error f => .error f
      | .ok (st3, evs2) => .ok (st3, evs ++ evs2)

/-- One tick of `Run` (with `predictUpdates` enabled). -/
def runTick (ms : ModelService) (now : ℝ) (fuel : ℕ) (st : ManagerState) :
    Except Failure (ManagerState × List MEvent) :=
  runVehicles ms now fuel st.vehicleIDs st

/-- `handleNewPrediction` from the source: caches the prediction and notifies
every registered subscriber. Nothing in `Run` ever calls it — the
channel-based dispatch that would is commented out in the source. -/
def handleNewPrediction (st : ManagerState) (p : Prediction) :
    ManagerState × List MEvent :=
  ({ st with predictions := fun i =>
      if i = p.vehicleID then some p else st.predictions i },
   st.subscribers.map (fun sub => MEvent.notify sub p))

/-- `Subscribe` from the source: appends a callback to the subscriber list. -/
def Subscribe (st : ManagerState) (sub : ℕ) : ManagerState :=
  { st with subscribers := st.subscribers ++ [sub] }

/-! ### Concrete tick scenario shared by C2, C4, C5, C7 and C10 -/

/-- Test route 9: one point at the origin, no listed stop ids. -/
def routeM : Route := ⟨9, [⟨0, 0⟩], []⟩

/-- Test stop collection (nonempty, as `HeadingTowardTowardOrLeavingStop`
indexes `stops[stopIndex]`). -/
def stopsM : List Stop := [⟨7, 0, 0⟩]

/-- Last observed location of test vehicle `v`: at the origin on route 9,
speed 0, observed at time 5, with observed id `v` and tracker id `v`. -/
def locM (v : ℤ) : Location := ⟨v, v, 0, 0, 0, 0, 5, 5, some v, some 9⟩

/-- Deterministic test model service: every vehicle resolves, route 9
resolves, and `CreateLocation` uniformly succeeds or fails as `b` says. -/
def mkMS (b : Bool) : ModelService :=
  { vehicle := fun i => some ⟨i⟩,
    route := fun rid => if rid = 9 then some routeM else none,
    stops := stopsM,
    createOk := fun _ => b }

/-- Prediction computed for vehicle `v` in the test scenario: speed 0 gives
zero projected distance, so the walk stays at index 0 with angle 0. -/
def predM (v : ℤ) : Prediction := ⟨v, ⟨0, 0⟩, 0, 0⟩

/-- Derived location the manager builds for vehicle `v` at time `now` in the
test scenario: id 0, tracker id copied, Created 0, no vehicle id, route 9. -/
def newUpdM (now : ℝ) (v : ℤ) : Location := ⟨0, v, 0, 0, 0, 0, now, 0, none, some 9⟩

/-- Evaluation of `NaivePredictPosition` in the test scenario. -/
theorem naivePredict_eval (b : Bool) (now : ℝ) (v : ℤ) :
    NaivePredictPosition (mkMS b) now 1 ⟨v⟩ (locM v) routeM = Except.ok (predM v) := by
  rw [NaivePredictPosition]
  norm_num [ClosestPointTo, closestAux, ClosestStop, closestStopRun,
    HeadingTowardTowardOrLeavingStop, DistanceToPointAlongRoute, distToPointAux,
    forwardWalk, mkMS, locM, routeM, stopsM, predM]

/-- Evaluation of `predictVehiclePosition` in the test scenario: the cache is
updated with the prediction, the derived location `newUpdM now v` is passed to
`CreateLocation`, and a failure (`b = false`) additionally logs. -/
theorem predictVehiclePosition_eval (b : Bool) (now : ℝ) (st : ManagerState) (v : ℤ)
    (h : st.updates v = some (locM v)) :
    predictVehiclePosition (mkMS b) now 1 st v =
      Except.ok
        ({ st with predictions := fun i =>
            if i = v then some (predM v) else st.predictions i },
         [MEvent.createLoc (newUpdM now v) b] ++
           (if b then [] else [MEvent.errCreate])) := by
  rw [predictVehiclePosition]
  have h1 : (mkMS b).vehicle v = some ⟨v⟩ := rfl
  have h2 : (mkMS b).route 9 = some routeM := by norm_num [mkMS]
  have h3 : (locM v).routeID = some 9 := rfl
  have h4 : (Vehicle.mk v).id = v := rfl
  simp only [h1, h4, h, h3, h2, naivePredict_eval]
  simp [predM, newUpdM, locM, mkMS, routeM]

/-- The derived location `predictVehiclePosition` builds on its success path
(named shorthand for the record literal in the source): only tracker id,
coordinates, heading, speed, observation time and route id are set; `id`,
`created` and `vehicleID` remain Go zero values. -/
def mkDerived (now : ℝ) (u : Location) (p : Prediction) (r : Route) : Location :=
  { id := 0, trackerID := u.trackerID,
    latitude := p.point.latitude, longitude := p.point.longitude,
    heading := u.heading, speed := u.speed,
    time := now, created := 0,
    vehicleID := none, routeID := some r.id }

/-- Shape of `predictVehiclePosition` on its success path: the derived
location `mkDerived` is passed to `CreateLocation`, a failure only logs, and
the prediction cache is updated unconditionally. -/
theorem predictVehiclePosition_success (ms : ModelService) (now : ℝ) (fuel : ℕ)
    (st : ManagerState) (vid : ℤ) (v : Vehicle) (u : Location) (rid : ℤ) (r : Route)
    (p : Prediction)
    (hv : ms.vehicle vid = some v)
    (hu : st.updates v.id = some u)
    (hrid : u.routeID = some rid)
    (hr : ms.route rid = some r)
    (hp : NaivePredictPosition ms now fuel v u r = Except.ok p) :
    predictVehiclePosition ms now fuel st vid =
      Except.ok
        ({ st with predictions := fun i =>
            if i = v.id then some p else st.predictions i },
         [MEvent.createLoc (mkDerived now u p r) (ms.createOk (mkDerived now u p r))] ++
           (if ms.createOk (mkDerived now u p r) then [] else [MEvent.errCreate])) := by
  simp only [predictVehiclePosition, hv, hu, hrid, hr, hp]
  rfl

/-- Concrete manager state: vehicles 1 and 2 active with cached updates, no
predictions yet, one registered subscriber. -/
def stM : ManagerState :=
  { predictions := fun _ => none,
    updates := fun i => if i = 1 ∨ i = 2 then some (locM i) else none,
    vehicleIDs := [1, 2],
    subscribers := [0] }

/-- Full evaluation of one tick in the test scenario: both vehicles are
processed in list order, each derived location is passed to `CreateLocation`,
the cache is updated for both regardless of the persistence outcome `b`, and
no `notify` event is ever emitted. -/
theorem runTick_eval (b : Bool) :
    runTick (mkMS b) 5 1 stM =
      Except.ok
        ({ stM with predictions := fun i =>
            if i = 2 then some (predM 2)
            else if i = 1 then some (predM 1) else stM.predictions i },
         MEvent.createLoc (newUpdM 5 1) b ::
           ((if b then [] else [MEvent.errCreate]) ++
             (MEvent.createLoc (newUpdM 5 2) b ::
               (if b then [] else [MEvent.errCreate])))) := by
  have e1 := predictVehiclePosition_eval b 5 stM 1 (by norm_num [stM])
  have e2 := predictVehiclePosition_eval b 5
    { stM with predictions := fun i => if i = 1 then some (predM 1) else stM.predictions i } 2
    (by norm_num [stM])
  have hv : stM.vehicleIDs = [1, 2] := rfl
  rw [runTick, hv]
  simp only [runVehicles, e1, e2]
  simp

/-- C10: on the success path of `predictVehiclePosition`, every location
passed to `CreateLocation` has its vehicle-id field unset (`none`) and its
creation-time field at the zero value, its producing-side id left at the zero
value `0`, and only tracker id, coordinates, heading, speed, observation time
(stamped with the tick time) and route id copied or set. -/
theorem C10_derived_location_fields (ms : ModelService) (now : ℝ) (fuel : ℕ)
    (st : ManagerState) (vid : ℤ) (v : Vehicle) (u : Location) (rid : ℤ) (r : Route)
    (p : Prediction)
    (hv : ms.vehicle vid = some v)
    (hu : st.updates v.id = some u)
    (hrid : u.routeID = some rid)
    (hr : ms.route rid = some r)
    (hp : NaivePredictPosition ms now fuel v u r = Except.ok p) :
    ∀ st2 evs, predictVehiclePosition ms now fuel st vid = Except.ok (st2, evs) →
      ∀ l ok2, MEvent.createLoc l ok2 ∈ evs →
        l.vehicleID = none ∧ l.created = 0 ∧ l.id = 0 ∧
        l.trackerID = u.trackerID ∧ l.latitude = p.point.latitude ∧
        l.longitude = p.point.longitude ∧ l.heading = u.heading ∧
        l.speed = u.speed ∧ l.time = now ∧ l.routeID = some r.id := by
  intro st2 evs he l ok2 hmem
  rw [predictVehiclePosition_success ms now fuel st vid v u rid r p hv hu hrid hr hp] at he
  injection he with he2
  have hevs : evs =
      [MEvent.createLoc (mkDerived now u p r) (ms.createOk (mkDerived now u p r))] ++
        (if ms.createOk (mkDerived now u p r) then [] else [MEvent.errCreate]) :=
    (congrArg Prod.snd he2).symm
  subst hevs
  by_cases hb : ms.createOk (mkDerived now u p r)
  · simp only [hb, if_true, List.append_nil, List.mem_singleton] at hmem
    injection hmem with h1 h2
    subst h1
    exact ⟨rfl, rfl, rfl, rfl, rfl, rfl, rfl, rfl, rfl, rfl⟩
  · simp only [hb, if_false, List.mem_append, List.mem_singleton] at hmem
    rcases hmem with hmem | hmem
    · injection hmem with h1 h2
      subst h1
      exact ⟨rfl, rfl, rfl, rfl, rfl, rfl, rfl, rfl, rfl, rfl⟩
    · simp at hmem

/-- C10 witness: in the concrete scenario (vehicle 1, route 9, tick time 5),
the tick's persisted location has no vehicle id, zero creation time, zero id,
and observation time 5, by `C10_derived_location_fields` applied to the
concrete run. -/
theorem C10_witness :
    (newUpdM 5 1).vehicleID = none ∧ (newUpdM 5 1).created = 0 ∧
    (newUpdM 5 1).id = 0 ∧ (newUpdM 5 1).time = 5 := by
  have happ := C10_derived_location_fields (mkMS true) 5 1 stM 1 ⟨1⟩ (locM 1) 9 routeM
    (predM 1) rfl (by norm_num [stM]) rfl (by norm_num [mkMS]) (naivePredict_eval true 5 1)
    _ _ (predictVehiclePosition_eval true 5 stM 1 (by norm_num [stM]))
    (newUpdM 5 1) true (by simp)
  exact ⟨happ.1, happ.2.1, happ.2.2.1, happ.2.2.2.2.2.2.2.2.1⟩

/-- C2: the tick loop never notifies subscribers — a code bug. The concrete
tick produces and caches a prediction per vehicle and calls `CreateLocation`,
but emits no `notify` event although a subscriber is registered; the dead
`handleNewPrediction` (never called from `Run`) is what would notify. -/
theorem C2_run_never_notifies :
    runTick (mkMS true) 5 1 stM =
      Except.ok
        ({ stM with predictions := fun i =>
            if i = 2 then some (predM 2)
            else if i = 1 then some (predM 1) else stM.predictions i },
         [MEvent.createLoc (newUpdM 5 1) true, MEvent.createLoc (newUpdM 5 2) true]) ∧
    stM.subscribers = [0] ∧
    MEvent.notify 0 (predM 1) ∉
      [MEvent.createLoc (newUpdM 5 1) true, MEvent.createLoc (newUpdM 5 2) true] ∧
    MEvent.notify 0 (predM 2) ∉
      [MEvent.createLoc (newUpdM 5 1) true, MEvent.createLoc (newUpdM 5 2) true] ∧
    (handleNewPrediction stM (predM 1)).2 = [MEvent.notify 0 (predM 1)] := by
  refine ⟨?_, rfl, by simp, by simp, by simp [handleNewPrediction, stM]⟩
  simpa using runTick_eval true

/-- Model service on which every vehicle lookup fails. -/
def msNoVehicle : ModelService :=
  { vehicle := fun _ => none, route := fun _ => none, stops := [],
    createOk := fun _ => true }

/-- Manager state with no cached prior update for any vehicle. -/
def stNoUpdate : ManagerState :=
  { predictions := fun _ => none, updates := fun _ => none,
    vehicleIDs := [1], subscribers := [] }

/-- Manager state whose cached update for vehicle 1 carries no route id. -/
def stNoRoute : ManagerState :=
  { predictions := fun _ => none,
    updates := fun i => if i = 1 then some { locM 1 with routeID := none } else none,
    vehicleIDs := [1], subscribers := [] }

/-- C4: a code bug. When the vehicle lookup fails, when there is no prior
update, or when the update carries no route id, `predictVehiclePosition` logs
but does not return, so it dereferences a nil pointer and panics — and the
panic propagates out of the tick loop (`runTick` dies) instead of the vehicle
merely being skipped. -/
theorem C4_failure_paths_panic :
    predictVehiclePosition msNoVehicle 5 1 stM 1 = Except.error Failure.nilDeref ∧
    predictVehiclePosition (mkMS true) 5 1 stNoUpdate 1 = Except.error Failure.nilDeref ∧
    predictVehiclePosition (mkMS true) 5 1 stNoRoute 1 = Except.error Failure.nilDeref ∧
    runTick msNoVehicle 5 1 stM = Except.error Failure.nilDeref := by
  refine ⟨rfl, rfl, ?_, rfl⟩
  simp [predictVehiclePosition, mkMS, stNoRoute, locM]

/-- C5 counterexample: with a model service whose `CreateLocation` always
fails, one tick still processes vehicle 2 after vehicle 1's persistence
failure (its `createLoc` attempt is in the event list), and both computed
predictions are still written into the cache — the concrete run refutes both
halves of the claim. -/
theorem C5_counterexample :
    runTick (mkMS false) 5 1 stM =
      Except.ok
        ({ stM with predictions := fun i =>
            if i = 2 then some (predM 2)
            else if i = 1 then some (predM 1) else stM.predictions i },
         [MEvent.createLoc (newUpdM 5 1) false, MEvent.errCreate,
          MEvent.createLoc (newUpdM 5 2) false, MEvent.errCreate]) ∧
    (mkMS false).createOk (newUpdM 5 1) = false ∧
    (fun i => if i = 2 then some (predM 2)
      else if i = 1 then some (predM 1) else stM.predictions i) 1 = some (predM 1) ∧
    MEvent.createLoc (newUpdM 5 2) false ∈
      [MEvent.createLoc (newUpdM 5 1) false, MEvent.errCreate,
       MEvent.createLoc (newUpdM 5 2) false, MEvent.errCreate] := by
  refine ⟨?_, rfl, by norm_num, by simp⟩
  simpa using runTick_eval false

/-- C5 (amended): on a Tracking Manager tick, when persisting the derived
location for a vehicle fails, the failure is logged, the computed Prediction
IS still written into the local cache, and the tick CONTINUES with the
remaining vehicles rather than aborting. -/
theorem C5_persist_failure_continues (ms : ModelService) (now : ℝ) (fuel : ℕ)
    (st : ManagerState) (vid : ℤ) (v : Vehicle) (u : Location) (rid : ℤ) (r : Route)
    (p : Prediction)
    (hv : ms.vehicle vid = some v)
    (hu : st.updates v.id = some u)
    (hrid : u.routeID = some rid)
    (hr : ms.route rid = some r)
    (hp : NaivePredictPosition ms now fuel v u r = Except.ok p)
    (hfail : ms.createOk (mkDerived now u p r) = false) :
    predictVehiclePosition ms now fuel st vid =
      Except.ok
        ({ st with predictions := fun i =>
            if i = v.id then some p else st.predictions i },
         [MEvent.createLoc (mkDerived now u p r) false, MEvent.errCreate]) ∧
    (∀ rest st3 evs2, runVehicles ms now fuel rest
        { st with predictions := fun i =>
            if i = v.id then some p else st.predictions i } = Except.ok (st3, evs2) →
      runVehicles ms now fuel (vid :: rest) st =
        Except.ok (st3,
          [MEvent.createLoc (mkDerived now u p r) false, MEvent.errCreate] ++ evs2)) := by
  have hmain : predictVehiclePosition ms now fuel st vid =
      Except.ok
        ({ st with predictions := fun i =>
            if i = v.id then some p else st.predictions i },
         [MEvent.createLoc (mkDerived now u p r) false, MEvent.errCreate]) := by
    rw [predictVehiclePosition_success ms now fuel st vid v u rid r p hv hu hrid hr hp,
      hfail]
    simp
  refine ⟨hmain, ?_⟩
  intro rest st3 evs2 hrec
  simp only [runVehicles, hmain, hrec]

/-- C5 witness: the amended behavior on the concrete failing-persistence run —
vehicle 1's persistence fails, its prediction is cached anyway, and vehicle 2
is still processed. -/
theorem C5_witness :
    runVehicles (mkMS false) 5 1 [1, 2] stM =
      Except.ok
        ({ stM with predictions := fun i =>
            if i = 2 then some (predM 2)
            else if i = 1 then some (predM 1) else stM.predictions i },
         [MEvent.createLoc (newUpdM 5 1) false, MEvent.errCreate] ++
           [MEvent.createLoc (newUpdM 5 2) false, MEvent.errCreate]) := by
  have e2 : runVehicles (mkMS false) 5 1 [2]
      { stM with predictions := fun i =>
          if i = (Vehicle.mk 1).id then some (predM 1) else stM.predictions i } =
      Except.ok
        ({ stM with predictions := fun i =>
            if i = 2 then some (predM 2)
            else if i = 1 then some (predM 1) else stM.predictions i },
         [MEvent.createLoc (newUpdM 5 2) false, MEvent.errCreate] ++ []) := by
    have h2 := predictVehiclePosition_eval false 5
      { stM with predictions := fun i =>
          if i = 1 then some (predM 1) else stM.predictions i } 2
      (by norm_num [stM])
    simp only [runVehicles, h2]
    simp
  exact (C5_persist_failure_continues (mkMS false) 5 1 stM 1 ⟨1⟩ (locM 1) 9 routeM
    (predM 1) rfl (by norm_num [stM]) rfl (by norm_num [mkMS]) (naivePredict_eval false 5 1)
    rfl).2 [2] _ _ e2

/-- C7 counterexample: within one Tracking Manager tick the two persisted
derived locations carry the SAME producing-side id (the Go zero value 0) and
a creation time of 0 rather than the current tick time 5 — so persisted
predicted locations do not carry fresh, distinct ids and current
timestamps. -/
theorem C7_counterexample :
    (runTick (mkMS true) 5 1 stM).map (fun r => r.2) =
      Except.ok [MEvent.createLoc (newUpdM 5 1) true,
        MEvent.createLoc (newUpdM 5 2) true] ∧
    (newUpdM 5 1).id = (newUpdM 5 2).id ∧
    (newUpdM 5 1).created = 0 ∧ (newUpdM 5 1).created ≠ (5 : ℝ) := by
  refine ⟨?_, rfl, rfl, by norm_num [newUpdM]⟩
  rw [runTick_eval true]
  simp [Except.map]

/-! ## Replay Engine (`spoofer.go`) -/

/-- Reified side effects of the Replay Engine: the `CreateLocation` call, the
error log on a failed call, the debug log after a successful spoof, and a
subscriber notification carrying the emitted location. -/
inductive SEvent where
  | createLoc (loc : Location) (ok : Bool)
  | errCreate (vehicleID : ℤ)
  | spoofed (vehicleID : ℤ)
  | notifyLoc (sub : ℕ) (loc : Location)

/-- Mutable state of `Spoofer`: the per-vehicle recorded sequences in a fixed
iteration order (Go map iteration order is unspecified; the embedding fixes
one), the per-vehicle cursor map, the monotone id counter and the subscriber
list. -/
structure SpooferState where
  updatesList : List (ℤ × List Location)
  spoofIndexes : ℤ → ℕ
  updateID : ℤ
  subscribers : List ℕ

/-- The loop body of `spoof()` over the per-vehicle sequences: take the
record at the cursor (a Go index expression — out of range panics), re-stamp
`Created` and `Time` with the current time and `ID` with the id counter, call
`CreateLocation` — on failure log and `return`, which abandons the REST of
the step — otherwise log, notify subscribers, advance the cursor by one with
wraparound to 0 at the sequence's end, and increment the id counter. -/
def spoofGo (ms : ModelService) (now : ℝ) :
    List (ℤ × List Location) → SpooferState → Except Failure (SpooferState × List SEvent)
  | [], st => .ok (st, [])
  | (vid, seq) :: rest, st =>
    match seq[st.spoofIndexes vid]? with
    | none => .error .indexRange
    | some u0 =>
      let u := { u0 with created := now, time := now, id := st.updateID }
      if ms.createOk u then
        match spoofGo ms now rest
          { st with
            spoofIndexes := fun i =>
              if i = vid then
                (if seq.length ≤ st.spoofIndexes vid + 1 then 0
                 else st.spoofIndexes vid + 1)
              else st.spoofIndexes i,
            updateID := st.updateID + 1 } with
        | .error f => .error f
        | .ok (st3, evs2) =>
          .ok (st3, SEvent.createLoc u true :: SEvent.spoofed vid ::
            (st.subscribers.map (fun sub => SEvent.notifyLoc sub u) ++ evs2))
      else .ok (st, [SEvent.createLoc u false, SEvent.errCreate vid])

/-- One replay step (`spoof()`): iterate over all loaded sequences. -/
def spoof (ms : ModelService) (now : ℝ) (st : SpooferState) :
    Except Failure (SpooferState × List SEvent) :=
  spoofGo ms now st.updatesList st

/-- `k` replay steps at the same wall-clock time, discarding events. -/
def spoofSteps (ms : ModelService) (now : ℝ) : ℕ → SpooferState → Except Failure SpooferState
  | 0, st => .ok st
  | k + 1, st =>
    match spoof ms now st with
    | .error f => .error f
    | .ok (st2, _) => spoofSteps ms now k st2

/-- A recorded location for vehicle `v` in the replay test data (recorded id
3, recorded timestamps 1). -/
def locR (v : ℤ) : Location := ⟨3, v, 0, 0, 0, 0, 1, 1, some v, none⟩

/-- Replay test state: vehicles 1 then 2 in iteration order, one recorded
location each, counter at 1. -/
def stS : SpooferState :=
  { updatesList := [(1, [locR 1]), (2, [locR 2])],
    spoofIndexes := fun _ => 0,
    updateID := 1,
    subscribers := [] }

/-- Model service that rejects exactly the locations whose tracker id is 1
(vehicle 1's re-stamped location) and accepts everything else. -/
def msS : ModelService :=
  { vehicle := fun _ => none, route := fun _ => none, stops := [],
    createOk := fun l => if l.trackerID = 1 then false else true }

/-- C3 counterexample: on the concrete two-vehicle replay state, persistence
failure for vehicle 1 makes the step `return`: the returned state is the
entry state unchanged (no cursor advance for anyone, no id bump) and the
events contain nothing for vehicle 2 — vehicle 2 is NOT processed in that
step. -/
theorem C3_counterexample :
    spoof msS 7 stS =
      Except.ok (stS,
        [SEvent.createLoc { locR 1 with created := 7, time := 7, id := 1 } false,
         SEvent.errCreate 1]) ∧
    SEvent.spoofed 2 ∉
      [SEvent.createLoc { locR 1 with created := 7, time := 7, id := 1 } false,
       SEvent.errCreate 1] ∧
    SEvent.createLoc { locR 2 with created := 7, time := 7, id := 1 } true ∉
      [SEvent.createLoc { locR 1 with created := 7, time := 7, id := 1 } false,
       SEvent.errCreate 1] := by
  refine ⟨rfl, by simp, by simp [locR]⟩

/-- C3 (amended): when persisting the re-stamped location for a vehicle
fails, the Replay Engine logs the failure and returns, abandoning the
remainder of the step: the state is returned unchanged from that point (no
cursor advance, no id bump) and no later vehicle in the iteration order is
processed, whatever the rest of the list is. -/
theorem C3_persist_failure_aborts_step (ms : ModelService) (now : ℝ)
    (vid : ℤ) (seq : List Location) (rest : List (ℤ × List Location))
    (st : SpooferState) (u0 : Location)
    (hget : seq[st.spoofIndexes vid]? = some u0)
    (hfail : ms.createOk { u0 with created := now, time := now, id := st.updateID } = false) :
    spoofGo ms now ((vid, seq) :: rest) st =
      Except.ok (st,
        [SEvent.createLoc { u0 with created := now, time := now, id := st.updateID } false,
         SEvent.errCreate vid]) := by
  simp only [spoofGo, hget, hfail]
  simp

/-- C3 witness: `C3_persist_failure_aborts_step` applied to the concrete
two-vehicle replay data with vehicle 2 as the abandoned remainder. -/
theorem C3_witness :
    spoofGo msS 7 [(1, [locR 1]), (2, [locR 2])] stS =
      Except.ok (stS,
        [SEvent.createLoc { locR 1 with created := 7, time := 7, id := 1 } false,
         SEvent.errCreate 1]) := by
  exact C3_persist_failure_aborts_step msS 7 1 [locR 1] [(2, [locR 2])] stS (locR 1) rfl rfl

/-- On an all-success model service, one pass of the `spoof()` loop advances
every listed vehicle's cursor by exactly one modulo its sequence length,
touches no other cursor, and leaves the sequence list and the subscriber list
unchanged. -/
theorem spoofGo_success (ms : ModelService) (now : ℝ)
    (hok : ∀ l, ms.createOk l = true) :
    ∀ (l : List (ℤ × List Location)) (st : SpooferState),
      (l.map Prod.fst).Nodup →
      (∀ p ∈ l, st.spoofIndexes p.1 < p.2.length) →
      ∃ st2 evs, spoofGo ms now l st = Except.ok (st2, evs) ∧
        (∀ p ∈ l, st2.spoofIndexes p.1 = (st.spoofIndexes p.1 + 1) % p.2.length) ∧
        (∀ v2, v2 ∉ l.map Prod.fst → st2.spoofIndexes v2 = st.spoofIndexes v2) ∧
        st2.updatesList = st.updatesList ∧
        st2.subscribers = st.subscribers := by
  intro l
  induction l with
  | nil =>
    intro st _ _
    exact ⟨st, [], rfl, by simp, fun _ _ => rfl, rfl, rfl⟩
  | cons hd rest ih =>
    obtain ⟨vid, seq⟩ := hd
    intro st hnodup hinv
    have hvid_notin : vid ∉ rest.map Prod.fst := (List.nodup_cons.mp hnodup).1
    have hnd2 : (rest.map Prod.fst).Nodup := (List.nodup_cons.mp hnodup).2
    have hcur : st.spoofIndexes vid < seq.length := hinv (vid, seq) (by simp)
    cases hget : seq[st.spoofIndexes vid]? with
    | none =>
      exact absurd (List.getElem?_eq_none_iff.mp hget) (by omega)
    | some u0 =>
      have hwrap : ({ st with
          spoofIndexes := fun i =>
            if i = vid then
              (if seq.length ≤ st.spoofIndexes vid + 1 then 0
               else st.spoofIndexes vid + 1)
            else st.spoofIndexes i,
          updateID := st.updateID + 1 } : SpooferState).spoofIndexes vid =
          (st.spoofIndexes vid + 1) % seq.length := by
        show (if vid = vid then
            (if seq.length ≤ st.spoofIndexes vid + 1 then 0
             else st.spoofIndexes vid + 1)
          else st.spoofIndexes vid) = _
        rw [if_pos rfl]
        by_cases hle : seq.length ≤ st.spoofIndexes vid + 1
        · have he : st.spoofIndexes vid + 1 = seq.length := by omega
          rw [if_pos hle, he, Nat.mod_self]
        · rw [if_neg hle, Nat.mod_eq_of_lt (by omega)]
      have hother : ∀ i, i ≠ vid → ({ st with
          spoofIndexes := fun i =>
            if i = vid then
              (if seq.length ≤ st.spoofIndexes vid + 1 then 0
               else st.spoofIndexes vid + 1)
            else st.spoofIndexes i,
          updateID := st.updateID + 1 } : SpooferState).spoofIndexes i =
          st.spoofIndexes i := by
        intro i hi
        show (if i = vid then _ else st.spoofIndexes i) = st.spoofIndexes i
        rw [if_neg hi]
      have hinv2 : ∀ p ∈ rest, ({ st with
          spoofIndexes := fun i =>
            if i = vid then
              (if seq.length ≤ st.spoofIndexes vid + 1 then 0
               else st.spoofIndexes vid + 1)
            else st.spoofIndexes i,
          updateID := st.updateID + 1 } : SpooferState).spoofIndexes p.1 < p.2.length := by
        intro p hp
        have hne : p.1 ≠ vid := by
          intro he
          exact hvid_notin (he ▸ List.mem_map.mpr ⟨p, hp, rfl⟩)
        rw [hother p.1 hne]
        exact hinv p (List.mem_cons_of_mem _ hp)
      obtain ⟨st2, evs2, hrun, hadv, huntouched, hul, hsub⟩ := ih
        { st with
          spoofIndexes := fun i =>
            if i = vid then
              (if seq.length ≤ st.spoofIndexes vid + 1 then 0
               else st.spoofIndexes vid + 1)
            else st.spoofIndexes i,
          updateID := st.updateID + 1 } hnd2 hinv2
      refine ⟨st2,
        SEvent.createLoc { u0 with created := now, time := now, id := st.updateID } true ::
          SEvent.spoofed vid ::
            (st.subscribers.map (fun sub => SEvent.notifyLoc sub
              { u0 with created := now, time := now, id := st.updateID }) ++ evs2),
        ?_, ?_, ?_, ?_, ?_⟩
      · simp only [spoofGo, hget, hok, hrun]
        simp
      · intro p hp
        rcases List.mem_cons.mp hp with rfl | hp2
        · exact (huntouched vid hvid_notin).trans hwrap
        · have hne : p.1 ≠ vid := by
            intro he
            exact hvid_notin (he ▸ List.mem_map.mpr ⟨p, hp2, rfl⟩)
          rw [hadv p hp2, hother p.1 hne]
      · intro v2 hv2
        have hv2a : v2 ≠ vid := by
          intro he
          exact hv2 (by simp [he])
        have hv2b : v2 ∉ rest.map Prod.fst := by
          intro he
          exact hv2 (by simp [he])
        rw [huntouched v2 hv2b, hother v2 hv2a]
      · exact hul
      · exact hsub

/-- On an all-success model service, `k` replay steps leave the sequence list
unchanged and move every listed vehicle's cursor forward by `k` modulo its
sequence length. -/
theorem spoofSteps_success (ms : ModelService) (now : ℝ)
    (hok : ∀ l, ms.createOk l = true) :
    ∀ (k : ℕ) (st : SpooferState),
      (st.updatesList.map Prod.fst).Nodup →
      (∀ p ∈ st.updatesList, st.spoofIndexes p.1 < p.2.length) →
      ∃ st2, spoofSteps ms now k st = Except.ok st2 ∧
        st2.updatesList = st.updatesList ∧
        (∀ p ∈ st.updatesList,
          st2.spoofIndexes p.1 = (st.spoofIndexes p.1 + k) % p.2.length) := by
  intro k
  induction k with
  | zero =>
    intro st hnd hinv
    refine ⟨st, rfl, rfl, ?_⟩
    intro p hp
    rw [Nat.add_zero, Nat.mod_eq_of_lt (hinv p hp)]
  | succ k ih =>
    intro st hnd hinv
    obtain ⟨st2, evs, hrun, hadv, _, hul, _⟩ :=
      spoofGo_success ms now hok st.updatesList st hnd hinv
    have hinv2 : ∀ p ∈ st2.updatesList, st2.spoofIndexes p.1 < p.2.length := by
      rw [hul]
      intro p hp
      rw [hadv p hp]
      exact Nat.mod_lt _ (lt_of_le_of_lt (Nat.zero_le _) (hinv p hp))
    have hnd2 : (st2.updatesList.map Prod.fst).Nodup := by rw [hul]; exact hnd
    obtain ⟨st3, hrun3, hul3, hadv3⟩ := ih st2 hnd2 hinv2
    refine ⟨st3, ?_, by rw [hul3, hul], ?_⟩
    · simp only [spoofSteps, spoof, hrun, hrun3]
    · intro p hp
      have hp2 : p ∈ st2.updatesList := by rw [hul]; exact hp
      rw [hadv3 p hp2, hadv p hp, Nat.mod_add_mod]
      congr 1
      omega

/-- C9 (amended): on an all-success model service, for every vehicle with a
loaded sequence of length `N ≥ 1` and cursor starting at 0, the cursor after
`k` successful steps is `k mod N` (always in `[0, N)`, advanced by one per
step, wrapping — not saturating — at the end); in particular after `N` steps
it is back at 0 and after `N + 1` steps it is `(N + 1) mod N` — which is 1
when `N ≥ 2` but 0 when `N = 1`. -/
theorem C9_cursor_dynamics (ms : ModelService) (now : ℝ) (st : SpooferState)
    (vid : ℤ) (seq : List Location)
    (hok : ∀ l, ms.createOk l = true)
    (hnd : (st.updatesList.map Prod.fst).Nodup)
    (hinv : ∀ p ∈ st.updatesList, st.spoofIndexes p.1 < p.2.length)
    (hmem : (vid, seq) ∈ st.updatesList)
    (hzero : st.spoofIndexes vid = 0) :
    (∀ k, (spoofSteps ms now k st).map (fun s => s.spoofIndexes vid) =
        Except.ok (k % seq.length) ∧ k % seq.length < seq.length) ∧
    (spoofSteps ms now seq.length st).map (fun s => s.spoofIndexes vid) =
      Except.ok 0 ∧
    (spoofSteps ms now (seq.length + 1) st).map (fun s => s.spoofIndexes vid) =
      Except.ok ((seq.length + 1) % seq.length) := by
  have hlen : 0 < seq.length := by
    have h0 : st.spoofIndexes vid < seq.length := hinv (vid, seq) hmem
    omega
  have hmain : ∀ k, (spoofSteps ms now k st).map (fun s => s.spoofIndexes vid) =
      Except.ok (k % seq.length) := by
    intro k
    obtain ⟨st2, hrun, hul, hadv⟩ := spoofSteps_success ms now hok k st hnd hinv
    have h2 : st2.spoofIndexes vid = (st.spoofIndexes vid + k) % seq.length :=
      hadv (vid, seq) hmem
    rw [hzero, Nat.zero_add] at h2
    rw [hrun]
    simp [Except.map, h2]
  refine ⟨fun k => ⟨hmain k, Nat.mod_lt k hlen⟩, ?_, hmain (seq.length + 1)⟩
  have h := hmain seq.length
  rwa [Nat.mod_self] at h

/-- All-success model service for the replay witnesses. -/
def msOK : ModelService :=
  { vehicle := fun _ => none, route := fun _ => none, stops := [],
    createOk := fun _ => true }

/-- Replay state with one vehicle and a single-record sequence (`N = 1`). -/
def stS1 : SpooferState :=
  { updatesList := [(1, [locR 1])], spoofIndexes := fun _ => 0,
    updateID := 1, subscribers := [] }

/-- Replay state with one vehicle and a two-record sequence (`N = 2`). -/
def stS2 : SpooferState :=
  { updatesList := [(1, [locR 1, locR 1])], spoofIndexes := fun _ => 0,
    updateID := 1, subscribers := [] }

/-- C9 counterexample: for a sequence of length `N = 1`, after `N + 1 = 2`
successful steps the cursor is 0, not 1 — the claim's `N + 1` clause fails at
`N = 1` because the cursor wraps to 0 on every step. -/
theorem C9_counterexample :
    (spoofSteps msOK 7 2 stS1).map (fun s => s.spoofIndexes 1) = Except.ok 0 ∧
    (0 : ℕ) ≠ 1 := by
  exact ⟨rfl, by norm_num⟩

/-- C9 witness: for the two-record sequence (`N = 2`), after 2 steps the
cursor is back at 0 and after 3 steps it is 1, by `C9_cursor_dynamics`. -/
theorem C9_witness :
    (spoofSteps msOK 7 2 stS2).map (fun s => s.spoofIndexes 1) = Except.ok 0 ∧
    (spoofSteps msOK 7 3 stS2).map (fun s => s.spoofIndexes 1) = Except.ok 1 := by
  have h := C9_cursor_dynamics msOK 7 stS2 1 [locR 1, locR 1] (fun _ => rfl)
    (by simp [stS2]) (by simp [stS2]) (by simp [stS2]) rfl
  exact ⟨h.2.1, by simpa using h.2.2⟩

/-- Ids of the locations passed to `CreateLocation` among a replay step's
events. -/
def createdIds (evs : List SEvent) : List ℤ :=
  evs.filterMap (fun e =>
    match e with
    | SEvent.createLoc loc _ => some loc.id
    | _ => none)

/-- On an all-success model service, every location a replay step passes to
`CreateLocation` is re-stamped with `created = time = now` and an id in
`[st.updateID, st2.updateID)` drawn from the counter; the ids are pairwise
distinct and the counter ends past all of them. -/
theorem spoofGo_fresh (ms : ModelService) (now : ℝ)
    (hok : ∀ l, ms.createOk l = true) :
    ∀ (l : List (ℤ × List Location)) (st st2 : SpooferState) (evs : List SEvent),
      spoofGo ms now l st = Except.ok (st2, evs) →
      (∀ loc b, SEvent.createLoc loc b ∈ evs →
        st.updateID ≤ loc.id ∧ loc.id < st2.updateID ∧
        loc.created = now ∧ loc.time = now) ∧
      (createdIds evs).Nodup ∧ st.updateID ≤ st2.updateID := by
  intro l
  induction l with
  | nil =>
    intro st st2 evs h
    simp only [spoofGo] at h
    injection h with h2
    injection h2 with h3 h4
    subst h3
    subst h4
    exact ⟨by simp, by simp [createdIds], le_refl _⟩
  | cons hd rest ih =>
    obtain ⟨vid, seq⟩ := hd
    intro st st2 evs h
    simp only [spoofGo] at h
    cases hget : seq[st.spoofIndexes vid]? with
    | none =>
      rw [hget] at h
      exact absurd h (by simp)
    | some u0 =>
      rw [hget] at h
      simp only at h
      rw [if_pos (hok _)] at h
      cases hrec : spoofGo ms now rest
        { st with
          spoofIndexes := fun i =>
            if i = vid then
              (if seq.length ≤ st.spoofIndexes vid + 1 then 0
               else st.spoofIndexes vid + 1)
            else st.spoofIndexes i,
          updateID := st.updateID + 1 } with
      | error f =>
        rw [hrec] at h
        exact absurd h (by simp)
      | ok pr =>
        obtain ⟨st3, evs2⟩ := pr
        rw [hrec] at h
        injection h with h2
        injection h2 with h3 h4
        subst h3
        subst h4
        obtain ⟨ihmem, ihnd, ihle⟩ := ih _ _ _ hrec
        have hle2 : st.updateID + 1 ≤ st3.updateID := ihle
        refine ⟨?_, ?_, by omega⟩
        · intro loc b hmem
          rcases List.mem_cons.mp hmem with heq | hmem2
          · injection heq with h5 h6
            subst h5
            refine ⟨le_refl _, ?_, rfl, rfl⟩
            exact lt_of_lt_of_le (by omega : st.updateID < st.updateID + 1) hle2
          · rcases List.mem_cons.mp hmem2 with heq | hmem3
            · exact absurd heq (by simp)
            · rcases List.mem_append.mp hmem3 with hmem4 | hmem5
              · obtain ⟨sub, _, heq⟩ := List.mem_map.mp hmem4
                exact absurd heq (by simp)
              · obtain ⟨ha, hb, hc, hd⟩ := ihmem loc b hmem5
                have ha2 : st.updateID + 1 ≤ loc.id := ha
                exact ⟨by omega, hb, hc, hd⟩
        · have hids : createdIds (SEvent.createLoc
              { u0 with created := now, time := now, id := st.updateID } true ::
              SEvent.spoofed vid ::
                (st.subscribers.map (fun sub => SEvent.notifyLoc sub
                  { u0 with created := now, time := now, id := st.updateID }) ++ evs2)) =
              st.updateID :: createdIds evs2 := by
            simp [createdIds, List.filterMap_append, List.filterMap_map, Function.comp]
          rw [hids]
          refine List.nodup_cons.mpr ⟨?_, ihnd⟩
          intro hmm
          obtain ⟨e, he, hfe⟩ := List.mem_filterMap.mp hmm
          cases e with
          | createLoc loc b =>
            simp only [Option.some.injEq] at hfe
            have ha2 : st.updateID + 1 ≤ loc.id := (ihmem loc b he).1
            omega
          | errCreate v2 => exact absurd hfe (by simp)
          | spoofed v2 => exact absurd hfe (by simp)
          | notifyLoc sub loc => exact absurd hfe (by simp)

/-- On the success path, the only location a manager tick step passes to
`CreateLocation` is `mkDerived now u p r`. -/
theorem predictVehiclePosition_createLoc_eq (ms : ModelService) (now : ℝ) (fuel : ℕ)
    (st : ManagerState) (vid : ℤ) (v : Vehicle) (u : Location) (rid : ℤ) (r : Route)
    (p : Prediction)
    (hv : ms.vehicle vid = some v) (hu : st.updates v.id = some u)
    (hrid : u.routeID = some rid) (hr : ms.route rid = some r)
    (hp : NaivePredictPosition ms now fuel v u r = Except.ok p) :
    ∀ st2 evs, predictVehiclePosition ms now fuel st vid = Except.ok (st2, evs) →
      ∀ loc b, MEvent.createLoc loc b ∈ evs → loc = mkDerived now u p r := by
  intro st2 evs he loc b hmem
  rw [predictVehiclePosition_success ms now fuel st vid v u rid r p hv hu hrid hr hp] at he
  injection he with he2
  have hevs : evs =
      [MEvent.createLoc (mkDerived now u p r) (ms.createOk (mkDerived now u p r))] ++
        (if ms.createOk (mkDerived now u p r) then [] else [MEvent.errCreate]) :=
    (congrArg Prod.snd he2).symm
  subst hevs
  by_cases hb : ms.createOk (mkDerived now u p r)
  · simp only [hb, if_true, List.append_nil, List.mem_singleton,
      MEvent.createLoc.injEq] at hmem
    exact hmem.1
  · simp only [hb, if_false, List.mem_append, List.mem_singleton,
      MEvent.createLoc.injEq] at hmem
    rcases hmem with hmem | hmem
    · exact hmem.1
    · simp at hmem

/-- C7 (amended): stamping of derived and emitted locations. Tracking
Manager: on any successful prediction step, every location passed to
`CreateLocation` carries observation time `now` but id 0 and creation time 0
(the Go zero values) — so the id is never copied from the triggering
location (whose id is nonzero), but it is NOT fresh or distinct either.
Replay Engine: on an all-success step, every location passed to
`CreateLocation` is re-stamped with `created` and `time` equal to the current
time and an id drawn from the engine's monotone counter, pairwise distinct
within the step. -/
theorem C7_stamping (ms : ModelService) (now : ℝ) :
    (∀ (fuel : ℕ) (st : ManagerState) (vid : ℤ) (v : Vehicle) (u : Location)
        (rid : ℤ) (r : Route) (p : Prediction),
      ms.vehicle vid = some v → st.updates v.id = some u → u.routeID = some rid →
      ms.route rid = some r → NaivePredictPosition ms now fuel v u r = Except.ok p →
      ∀ st2 evs, predictVehiclePosition ms now fuel st vid = Except.ok (st2, evs) →
        ∀ loc b, MEvent.createLoc loc b ∈ evs →
          loc.id = 0 ∧ loc.created = 0 ∧ loc.time = now ∧
            (u.id ≠ 0 → loc.id ≠ u.id)) ∧
    (∀ (l : List (ℤ × List Location)) (st st2 : SpooferState) (evs : List SEvent),
      (∀ loc2, ms.createOk loc2 = true) →
      spoofGo ms now l st = Except.ok (st2, evs) →
      (∀ loc b, SEvent.createLoc loc b ∈ evs →
        st.updateID ≤ loc.id ∧ loc.id < st2.updateID ∧
        loc.created = now ∧ loc.time = now) ∧
      (createdIds evs).Nodup) := by
  constructor
  · intro fuel st vid v u rid r p hv hu hrid hr hp st2 evs he loc b hmem
    have hloc := predictVehiclePosition_createLoc_eq ms now fuel st vid v u rid r p
      hv hu hrid hr hp st2 evs he loc b hmem
    subst hloc
    exact ⟨rfl, rfl, rfl, fun h => Ne.symm h⟩
  · intro l st st2 evs hok2 hgo
    obtain ⟨h1, h2, _⟩ := spoofGo_fresh ms now hok2 l st st2 evs hgo
    exact ⟨h1, h2⟩

/-- C7 witness: `C7_stamping` applied to the concrete manager tick (tick time
5, vehicle 1) and to a concrete all-success replay step (time 7, counter 1):
the manager's persisted location has id 0, creation time 0 and observation
time 5; the replay step's emitted location is stamped created = time = 7 with
the counter id, and the step's created-location ids are distinct. -/
theorem C7_stamping_witness :
    ((newUpdM 5 1).id = 0 ∧ (newUpdM 5 1).created = 0 ∧ (newUpdM 5 1).time = 5) ∧
    (({ locR 1 with created := 7, time := 7, id := 1 } : Location).created = 7 ∧
      ({ locR 1 with created := 7, time := 7, id := 1 } : Location).time = 7 ∧
      (createdIds [SEvent.createLoc
        { locR 1 with created := 7, time := 7, id := 1 } true,
        SEvent.spoofed 1]).Nodup) := by
  constructor
  · have h := (C7_stamping (mkMS true) 5).1 1 stM 1 ⟨1⟩ (locM 1) 9 routeM (predM 1)
      rfl (by norm_num [stM]) rfl (by norm_num [mkMS]) (naivePredict_eval true 5 1)
      _ _ (predictVehiclePosition_eval true 5 stM 1 (by norm_num [stM]))
      (newUpdM 5 1) true (by simp)
    exact ⟨h.1, h.2.1, h.2.2.1⟩
  · have hgo : spoofGo msOK 7 [(1, [locR 1])] stS1 = Except.ok
        ({ stS1 with spoofIndexes := fun i => if i = 1 then 0 else 0, updateID := 2 },
         [SEvent.createLoc { locR 1 with created := 7, time := 7, id := 1 } true,
          SEvent.spoofed 1]) := rfl
    have h := (C7_stamping msOK 7).2 [(1, [locR 1])] stS1 _ _ (fun _ => rfl) hgo
    have hmem := h.1 { locR 1 with created := 7, time := 7, id := 1 } true (by simp)
    exact ⟨hmem.2.2.1, hmem.2.2.2, h.2⟩

end

end Shuttle
